import Mathlib

/-!
Verification development for the chat front-end client
(session store, transport client, connection monitor, send orchestrator).

The development is a shallow embedding of the TypeScript sources:

* the Zustand chat store (`chatStore`): state shape, session/message
  operations, and the composite `sendMessage` / `streamMessage` /
  `retryLastMessage` / `exportSession` / `importSession` workflows;
* the API client's SSE stream reader `streamChatMessage`;
* the `useChat` hook's connection monitor (`checkConnection` with its
  reconnect timeout) and the send orchestrator `sendMessageWithRetry`.

Modelling conventions:

* Client-generated ids (`generateId`, a timestamp-plus-random string in the
  source) are modelled as an opaque `Nat` drawn from a per-state counter
  `nextId`; uniqueness of generated ids is the counter's monotonicity.
* `Date.now()` is the logical clock `clock : Nat` carried in the state.
* Message `metadata` is treated as an opaque JSON value (`Jval`): the store
  only ever attaches or wholesale-replaces it, never inspects it.
* JS string helpers that the store uses (`trim`, `split(' ')`, `join(' ')`)
  are implemented by structural recursion so that they evaluate.
* A JS optional string field is `Option String`; JS truthiness of such a
  field (`undefined`/empty string are falsy) is `strTruthy`.
* Network effects are parameters: the single-shot send takes the
  response/failure outcome (`SendOutcome`), the stream workflows take the
  list of decoded events, and the monitor/orchestrator take probe results.
-/

/-- JSON values, used for the opaque message metadata and for the
export/import payloads (`JSON.stringify` / `JSON.parse`). -/
inductive Jval where
  | null
  | bool (b : Bool)
  | num (q : ℚ)
  | str (s : String)
  | arr (items : List Jval)
  | obj (fields : List (String × Jval))

/-- Message roles, from `types/chat.ts` (`MessageRole`). -/
inductive Role where
  | user
  | assistant
  | system
deriving DecidableEq

/-- A chat message, from `types/chat.ts` (`Message`).  The optional
`isLoading` flag of the source is a `Bool` defaulting to `false` (JS treats
the absent field and `false` identically wherever it is read). -/
structure Message where
  id : Nat
  role : Role
  content : String
  timestamp : Nat
  metadata : Option Jval := none
  isLoading : Bool := false
  error : Option String := none

/-- A chat session, from `types/chat.ts` (`ChatSession`). -/
structure ChatSession where
  id : Nat
  messages : List Message
  created_at : Nat
  updated_at : Nat
  title : Option String := none
  location : Option String := none

/-- The store state, from `types/chat.ts` (`ChatState`), extended with the
id counter and logical clock of the modelling conventions. -/
structure ChatState where
  currentSession : Option ChatSession
  sessions : List ChatSession
  isLoading : Bool
  error : Option String
  isConnected : Bool
  nextId : Nat
  clock : Nat

/-- JS truthiness of an optional string field: `undefined` and `""` are
falsy, every other string is truthy. -/
def strTruthy : Option String → Bool
  | some s => !(s = "")
  | none => false

/-- JS `String.prototype.trim`, by structural recursion (drop whitespace
from both ends). -/
def jsTrim (s : String) : String :=
  String.mk (((s.data.dropWhile Char.isWhitespace).reverse.dropWhile Char.isWhitespace).reverse)

/-- JS `String.prototype.split(' ')`: cut at every single space, keeping
empty pieces. Helper on character lists. -/
def splitSpaceAux : List Char → List Char → List (List Char)
  | [], acc => [acc.reverse]
  | c :: cs, acc =>
    if c = ' ' then acc.reverse :: splitSpaceAux cs []
    else splitSpaceAux cs (c :: acc)

/-- JS `String.prototype.split(' ')` on strings. -/
def splitSpace (s : String) : List String :=
  (splitSpaceAux s.data []).map String.mk

/-- JS `Array.prototype.join(' ')`. -/
def joinSpace : List String → String
  | [] => ""
  | [s] => s
  | s :: rest => s ++ " " ++ joinSpace rest

/-- The store's `generateId`: one fresh opaque id from the state counter. -/
def genId (st : ChatState) : Nat × ChatState :=
  (st.nextId, { st with nextId := st.nextId + 1 })

/-- The store's `generateSessionTitle`: first six space-separated words of
the trimmed first message, with an ellipsis when truncated. -/
def generateSessionTitle (firstMessage : String) : String :=
  let trimmed := jsTrim firstMessage
  if trimmed = "" then "New Chat"
  else
    let words := (splitSpace trimmed).take 6
    let title := joinSpace words
    if title.length < trimmed.length then title ++ "..." else title

/-- The store's `validateMessage`: reject empty/whitespace-only content,
then content longer than 10000 characters. -/
def validateMessage (content : String) : Option String :=
  if jsTrim content = "" then some "Message cannot be empty"
  else if 10000 < content.length then some "Message too long (max 10000 characters)"
  else none

/-- A partial session update (`Partial<ChatSession>`) as passed to
`updateSessionInArray`; only the fields the store ever patches. -/
structure SessionPatch where
  messages : Option (List Message) := none
  updated_at : Option Nat := none
  title : Option String := none

/-- JS object spread of a `SessionPatch` over a session. -/
def applySessionPatch (s : ChatSession) (p : SessionPatch) : ChatSession :=
  { s with
    messages := p.messages.getD s.messages
    updated_at := p.updated_at.getD s.updated_at
    title := match p.title with
      | some t => some t
      | none => s.title }

/-- The store's `updateSessionInArray`: replace the first session with the
given id by its patched copy; unchanged when the id is absent. -/
def updateSessionInArray : List ChatSession → Nat → SessionPatch → List ChatSession
  | [], _, _ => []
  | s :: rest, sessionId, p =>
    if s.id = sessionId then applySessionPatch s p :: rest
    else s :: updateSessionInArray rest sessionId p

/-- A partial message update (`Partial<Message>`) as passed to
`updateMessage`; only the fields the store ever patches. -/
structure MessagePatch where
  content : Option String := none
  isLoading : Option Bool := none
  metadata : Option Jval := none
  error : Option String := none

/-- JS object spread of a `MessagePatch` over a message (shallow overwrite;
`metadata` replaced wholesale). -/
def applyMessagePatch (m : Message) (p : MessagePatch) : Message :=
  { m with
    content := p.content.getD m.content
    isLoading := p.isLoading.getD m.isLoading
    metadata := match p.metadata with
      | some j => some j
      | none => m.metadata
    error := match p.error with
      | some e => some e
      | none => m.error }

/-- Replace the first message carrying the given id by its patched copy
(the `findIndex` / assignment step of the store's `updateMessage`). -/
def replaceFirstMessage : List Message → Nat → MessagePatch → List Message
  | [], _, _ => []
  | m :: rest, messageId, p =>
    if m.id = messageId then applyMessagePatch m p :: rest
    else m :: replaceFirstMessage rest messageId p

/-- The arguments of the store's `addMessage`
(`Omit<Message, 'id' | 'timestamp'>`; the composite workflows pass full
messages whose `id`/`timestamp` survive the spread over the generated
defaults, hence the optional fields). -/
structure MessageData where
  id : Option Nat := none
  timestamp : Option Nat := none
  role : Role
  content : String
  isLoading : Bool := false
  metadata : Option Jval := none
  error : Option String := none

/-- The store's `addMessage`: build the message (generated id/timestamp
overridden by the caller's, mirroring the JS spread), append it to the
current session and mirror the change into `sessions`; silently a no-op on
the session data when there is no current session. -/
def addMessage (d : MessageData) (st : ChatState) : ChatState :=
  let p := genId st
  let st1 := p.2
  let message : Message :=
    { id := d.id.getD p.1
      timestamp := d.timestamp.getD st1.clock
      role := d.role
      content := d.content
      isLoading := d.isLoading
      metadata := d.metadata
      error := d.error }
  match st1.currentSession with
  | none => st1
  | some cs =>
    let msgs := cs.messages ++ [message]
    let cs' := { cs with messages := msgs, updated_at := st1.clock }
    { st1 with
      currentSession := some cs'
      sessions := updateSessionInArray st1.sessions cs'.id
        { messages := some msgs, updated_at := some st1.clock } }

/-- The store's `updateMessage`: merge the patch into the matching message
of the current session (first match by id) and mirror into `sessions`;
no-op when the id is not found or there is no current session. -/
def updateMessage (messageId : Nat) (p : MessagePatch) (st : ChatState) : ChatState :=
  match st.currentSession with
  | none => st
  | some cs =>
    if cs.messages.any (fun m => decide (m.id = messageId)) then
      let msgs := replaceFirstMessage cs.messages messageId p
      let cs' := { cs with messages := msgs }
      { st with
        currentSession := some cs'
        sessions := updateSessionInArray st.sessions cs'.id { messages := some msgs } }
    else st

/-- The store's `deleteMessage`: drop the messages with the given id from
the current session and mirror into `sessions`. -/
def deleteMessage (messageId : Nat) (st : ChatState) : ChatState :=
  match st.currentSession with
  | none => st
  | some cs =>
    let msgs := cs.messages.filter (fun m => decide (m.id ≠ messageId))
    let cs' := { cs with messages := msgs }
    { st with
      currentSession := some cs'
      sessions := updateSessionInArray st.sessions cs'.id { messages := some msgs } }

/-- The store's `createSession`: allocate a fresh empty session, make it
current and prepend it to `sessions` (the source's try/catch never fires:
nothing in the block throws). -/
def createSession (st : ChatState) : ChatState :=
  let st1 := { st with isLoading := true, error := none }
  let p := genId st1
  let newSession : ChatSession :=
    { id := p.1, messages := [], created_at := p.2.clock, updated_at := p.2.clock }
  { p.2 with
    currentSession := some newSession
    sessions := newSession :: p.2.sessions
    isLoading := false }

/-- The store's `deleteSession`: filter the id out of `sessions` and clear
`currentSession` when it was the deleted one. -/
def deleteSession (sessionId : Nat) (st : ChatState) : ChatState :=
  let sessions' := st.sessions.filter (fun s => decide (s.id ≠ sessionId))
  let current' := match st.currentSession with
    | some cs => if cs.id = sessionId then none else some cs
    | none => none
  { st with sessions := sessions', currentSession := current' }

/-- The single-shot response as consumed by `sendMessage`: the response
text plus the metadata object the store builds from the response's
confidence score, risk assessment, mapped context sources and processing
time (abstracted here as one JSON value, since the store never inspects
it). -/
structure ChatResponseModel where
  response : String
  metadata : Jval

/-- The outcome of the awaited `apiClient.sendChatMessage` call: either the
response, or the thrown error already rendered to the message string the
catch block computes (`APIError.message` or the generic fallback). -/
inductive SendOutcome where
  | success (resp : ChatResponseModel)
  | failure (errorMessage : String)

/-- Result of the synchronous part of `sendMessage`/`streamMessage` that
runs before the network call (steps: validate, ensure a current session,
append the user message and the assistant placeholder, raise the global
loading flag). -/
inductive PreResult where
  | rejected (st : ChatState)
  | proceed (assistantMessageId : Nat) (st : ChatState)

/-- The shared prelude of the store's `sendMessage` and `streamMessage`
(their source code for these steps is identical): validation, session
creation when needed, the two `addMessage` calls, and the
`isLoading := true` / `error := null` update that precedes the request. -/
def sendMessagePre (content : String) (st : ChatState) : PreResult :=
  match validateMessage content with
  | some validation => .rejected { st with error := some validation }
  | none =>
    let st1 := if st.currentSession.isSome then st else createSession st
    match st1.currentSession with
    | none => .rejected { st1 with error := some "Failed to create session" }
    | some _ =>
      let p1 := genId st1
      let p2 := genId p1.2
      let st2 := p2.2
      let userMessage : MessageData :=
        { id := some p1.1, timestamp := some st2.clock, role := .user, content := jsTrim content }
      let assistantMessage : MessageData :=
        { id := some p2.1, timestamp := some st2.clock, role := .assistant
          content := "", isLoading := true }
      let st3 := addMessage userMessage st2
      let st4 := addMessage assistantMessage st3
      .proceed p2.1 { st4 with isLoading := true, error := none }

/-- The continuation of the store's `sendMessage` after the awaited
single-shot request: on success patch the placeholder with the response
and set the session title when this was the first user message; on failure
patch the placeholder with the apology and the error and mirror the error
globally; in both cases finally clear the global loading flag. -/
def sendMessagePost (content : String) (assistantMessageId : Nat)
    (outcome : SendOutcome) (st : ChatState) : ChatState :=
  match outcome with
  | .success resp =>
    let st1 := updateMessage assistantMessageId
      { content := some resp.response, isLoading := some false, metadata := some resp.metadata } st
    let st2 :=
      match st1.currentSession with
      | some session =>
        if (session.messages.filter (fun (m : Message) => decide (m.role = Role.user))).length = 1 then
          let title := generateSessionTitle content
          { st1 with
            currentSession := some { session with title := some title, updated_at := st1.clock }
            sessions := updateSessionInArray st1.sessions session.id
              { title := some title, updated_at := some st1.clock } }
        else st1
      | none => st1
    { st2 with isLoading := false }
  | .failure errorMessage =>
    let st1 := updateMessage assistantMessageId
      { content := some "Sorry, I encountered an error. Please try again."
        isLoading := some false, error := some errorMessage } st
    { st1 with error := some errorMessage, isLoading := false }

/-- The store's `sendMessage`, as a function of the network outcome. -/
def sendMessage (content : String) (outcome : SendOutcome) (st : ChatState) : ChatState :=
  match sendMessagePre content st with
  | .rejected st' => st'
  | .proceed assistantMessageId st' => sendMessagePost content assistantMessageId outcome st'

/-- A callback invocation performed by the transport's
`streamChatMessage` on its consumer. -/
inductive CallbackEvent where
  | onChunk (s : String)
  | onMetadata (j : Jval)
  | onError (e : String)
  | onComplete

/-- One callback of the store's `streamMessage`, folded over the incoming
events: the accumulated content plus the state.  `onChunk` extends the
accumulator and rewrites the placeholder; `onMetadata` replaces the
placeholder's metadata wholesale; `onError` finalises the placeholder with
the accumulated content (or the apology when nothing accumulated), the
error, and clears both loading flags; `onComplete` clears both loading
flags. -/
def streamEventStep (assistantMessageId : Nat) :
    String × ChatState → CallbackEvent → String × ChatState
  | (acc, st), .onChunk chunk =>
    let acc' := acc ++ chunk
    (acc', updateMessage assistantMessageId { content := some acc', isLoading := some true } st)
  | (acc, st), .onMetadata j =>
    (acc, updateMessage assistantMessageId { metadata := some j } st)
  | (acc, st), .onError e =>
    let st1 := updateMessage assistantMessageId
      { content := some (if acc = "" then "Sorry, I encountered an error." else acc)
        isLoading := some false, error := some e } st
    (acc, { st1 with error := some e, isLoading := false })
  | (acc, st), .onComplete =>
    let st1 := updateMessage assistantMessageId { isLoading := some false } st
    (acc, { st1 with isLoading := false })

/-- The store's `streamMessage`, as a function of the decoded stream
events delivered by the transport (the outer catch of the source is dead:
`streamChatMessage` catches its own failures and reports them through
`onError`). -/
def streamMessage (content : String) (events : List CallbackEvent) (st : ChatState) : ChatState :=
  match sendMessagePre content st with
  | .rejected st' => st'
  | .proceed assistantMessageId st' =>
    (events.foldl (streamEventStep assistantMessageId) ("", st')).2

/-- The store's `retryLastMessage`: no-op without a current session, fewer
than two messages, or no user message; otherwise drop a trailing assistant
message that is errored or loading, and re-send the most recent user
message's content. -/
def retryLastMessage (outcome : SendOutcome) (st : ChatState) : ChatState :=
  match st.currentSession with
  | none => st
  | some currentSession =>
    if currentSession.messages.length < 2 then st
    else
      match currentSession.messages.reverse.find? (fun m => decide (m.role = Role.user)) with
      | none => st
      | some lastUserMessage =>
        let st1 :=
          match currentSession.messages.getLast? with
          | some lastMessage =>
            if lastMessage.role = Role.assistant ∧
                (strTruthy lastMessage.error || lastMessage.isLoading) = true then
              deleteMessage lastMessage.id st
            else st
          | none => st
        sendMessage lastUserMessage.content outcome st1

/-- First-match field lookup in a JSON object's field list. -/
def lookupField : List (String × Jval) → String → Option Jval
  | [], _ => none
  | (k, v) :: rest, key => if k = key then some v else lookupField rest key

/-- JS property access `v[key]` on a parsed JSON value: `undefined` (here
`none`) unless `v` is an object carrying the key. -/
def getField : Jval → String → Option Jval
  | .obj fields, key => lookupField fields key
  | _, _ => none

/-- Read a JSON string. -/
def asString : Jval → Option String
  | .str s => some s
  | _ => none

/-- Read a JSON boolean. -/
def asBool : Jval → Option Bool
  | .bool b => some b
  | _ => none

/-- Read a JSON number as a natural (ids and timestamps of the model). -/
def asNat : Jval → Option Nat
  | .num q => if q.den = 1 ∧ 0 ≤ q.num then some q.num.toNat else none
  | _ => none

/-- Serialization of a role. -/
def Role.toStr : Role → String
  | .user => "user"
  | .assistant => "assistant"
  | .system => "system"

/-- Read a serialized role back. -/
def asRole : Jval → Option Role
  | .str s =>
    if s = "user" then some .user
    else if s = "assistant" then some .assistant
    else if s = "system" then some .system
    else none
  | _ => none

/-- JSON.stringify of a message: the fields present on the JS object
(`metadata`/`error` omitted when `undefined`, like `JSON.stringify`
omits `undefined`-valued properties). -/
def encodeMessage (m : Message) : Jval :=
  .obj ([("id", .num (m.id : ℚ)), ("role", .str m.role.toStr),
         ("content", .str m.content), ("timestamp", .num (m.timestamp : ℚ)),
         ("isLoading", .bool m.isLoading)]
    ++ (match m.metadata with
        | some j => [("metadata", j)]
        | none => [])
    ++ (match m.error with
        | some e => [("error", .str e)]
        | none => []))

/-- JSON.stringify of a session. -/
def encodeSession (s : ChatSession) : Jval :=
  .obj ([("id", .num (s.id : ℚ)), ("messages", .arr (s.messages.map encodeMessage)),
         ("created_at", .num (s.created_at : ℚ)), ("updated_at", .num (s.updated_at : ℚ))]
    ++ (match s.title with
        | some t => [("title", .str t)]
        | none => [])
    ++ (match s.location with
        | some l => [("location", .str l)]
        | none => []))

/-- Typed reading of one element of an imported `messages` array (the
source stores the parsed objects untyped via spread; the model reads them
back into `Message`, with absent optional fields defaulted as JS reads
them). -/
def decodeMessage (v : Jval) : Option Message :=
  match (getField v "id").bind asNat, (getField v "role").bind asRole,
        (getField v "content").bind asString, (getField v "timestamp").bind asNat with
  | some mid, some role, some content, some ts =>
    some { id := mid, role := role, content := content, timestamp := ts
           metadata := getField v "metadata"
           isLoading := ((getField v "isLoading").bind asBool).getD false
           error := (getField v "error").bind asString }
  | _, _, _, _ => none

/-- The store's `exportSession`: the `JSON.stringify` payload
`{ session, exported_at, version: "1.0" }` of the current session, or
`null` when there is none (the source's catch around the stringify is
dead: these values always stringify). -/
def exportSession (st : ChatState) : Option Jval :=
  match st.currentSession with
  | none => none
  | some currentSession =>
    some (.obj [("session", encodeSession currentSession),
                ("exported_at", .num (st.clock : ℚ)), ("version", .str "1.0")])

/-- The validity check of the store's `importSession` on the parse result
(`none` = `JSON.parse` threw): `parsed.session?.messages` must exist and
be an array (`Array.isArray`); only arrays pass both the truthiness and
the `isArray` test. -/
def importPayloadValid : Option Jval → Bool
  | none => false
  | some v =>
    match getField v "session" with
    | some s =>
      match getField s "messages" with
      | some (.arr _) => true
      | _ => false
    | none => false

/-- The store's `importSession` on the parse result of its string
argument: on a malformed payload set the store error and report failure;
otherwise rebuild the session from the payload (JS spread keeps the
imported `messages`/`title`/`location`), overwrite `id`/`created_at`/
`updated_at` with fresh values, make it current and prepend it to
`sessions`. -/
def importSession (payload : Option Jval) (st : ChatState) : Bool × ChatState :=
  if importPayloadValid payload then
    match payload with
    | none => (false, { st with error := some "Invalid session data format" })
    | some v =>
      let sJson := (getField v "session").getD .null
      let msgs := match getField sJson "messages" with
        | some (.arr items) => items.filterMap decodeMessage
        | _ => []
      let p := genId st
      let session : ChatSession :=
        { id := p.1, messages := msgs, created_at := p.2.clock, updated_at := p.2.clock
          title := (getField sJson "title").bind asString
          location := (getField sJson "location").bind asString }
      (true, { p.2 with
        currentSession := some session
        sessions := session :: p.2.sessions
        error := none })
  else (false, { st with error := some "Invalid session data format" })

/-- A scheduled reconnect timeout of the `useChat` hook (delay in
milliseconds, fixed at 5000 by the source). -/
structure TimerRec where
  id : Nat
  delay : Nat
deriving DecidableEq

/-- Observable state of the hook's connection monitor: the connectivity
flag and error it writes to the store, the set of scheduled reconnect
timeouts that have neither fired nor been cancelled, the single timer id
held in `reconnectTimeoutRef`, and the timer-id supply. -/
structure MonitorState where
  isConnected : Bool
  error : Option String
  pendingReconnects : List TimerRec
  reconnectTimeoutRef : Option Nat
  nextTimer : Nat
deriving DecidableEq

/-- Events of the monitor model: a `checkConnection` health probe
completes with a result, or a scheduled reconnect timeout fires.  Probes
overlap freely in the source: besides the reconnect timeouts, probes are
started by the mount effect, the 30-second interval, and the send
orchestrator's `checkConnection` call, so two failed probes can complete
with no timer firing in between. -/
inductive MonitorEvent where
  | probeResult (ok : Bool)
  | timerFires (t : Nat)

/-- The `checkConnection` handler of the `useChat` hook, at the point its
awaited health check resolves: on success set connected and clear the
error; on failure set disconnected, set the reconnecting message, and
assign a new 5000 ms timeout into `reconnectTimeoutRef` — the source does
not `clearTimeout` the previous value, so an already pending timeout stays
scheduled. -/
def checkConnectionResult (st : MonitorState) (ok : Bool) : MonitorState :=
  if ok then { st with isConnected := true, error := none }
  else
    let t : TimerRec := { id := st.nextTimer, delay := 5000 }
    { st with
      isConnected := false
      error := some "Connection lost. Attempting to reconnect..."
      pendingReconnects := st.pendingReconnects ++ [t]
      reconnectTimeoutRef := some t.id
      nextTimer := st.nextTimer + 1 }

/-- One step of the monitor model. -/
def monitorStep (st : MonitorState) : MonitorEvent → MonitorState
  | .probeResult ok => checkConnectionResult st ok
  | .timerFires t =>
    { st with pendingReconnects := st.pendingReconnects.filter (fun x => decide (x.id ≠ t)) }

/-- A run of the monitor model over a sequence of events. -/
def monitorRun (st : MonitorState) (events : List MonitorEvent) : MonitorState :=
  events.foldl monitorStep st

/-- Outcome of one attempt of the orchestrator's inner `attemptSend`
(success, or the error it would throw, already rendered to a string). -/
inductive AttemptResult where
  | success
  | failure (e : String)
deriving DecidableEq

/-- Result of the orchestrator as seen by its caller. -/
inductive OrchestratorResult where
  | ok
  | thrown (e : String)
deriving DecidableEq

/-- What a run of the orchestrator did: how many send attempts were made,
what the caller got, and the connectivity flag the store holds at the end
(updated by the `checkConnection` re-probes). -/
structure RetryTrace where
  attemptsMade : Nat
  result : OrchestratorResult
  storeConnected : Bool
deriving DecidableEq

/-- The recursive `attemptSend` of the hook's `sendMessageWithRetry`.
`isConnected` is the React state value captured by the `useCallback`
closure: it is fixed for the whole invocation, which is why the source's
`if (isConnected)` recursion guard re-reads the very value that made the
enclosing `!isConnected` test succeed.  `outcomes k` is the result of the
k-th send attempt, `probeResults k` the result of the k-th re-probe
(which updates only the store flag).  `fuel` bounds the recursion
(`maxRetries` in the source); the attempt counter never lets it run out. -/
def attemptSend (isConnected : Bool) (outcomes : Nat → AttemptResult)
    (probeResults : Nat → Bool) :
    Nat → Nat → Nat → Nat → Bool → RetryTrace
  | 0, _, made, _, store =>
    { attemptsMade := made, result := .thrown "retry budget exhausted", storeConnected := store }
  | fuel + 1, attempt, made, probes, store =>
    match outcomes made with
    | .success => { attemptsMade := made + 1, result := .ok, storeConnected := store }
    | .failure e =>
      let attempt' := attempt + 1
      if attempt' < 3 ∧ isConnected = false then
        let store' := probeResults probes
        if isConnected then
          attemptSend isConnected outcomes probeResults fuel attempt' (made + 1) (probes + 1) store'
        else
          { attemptsMade := made + 1, result := .thrown e, storeConnected := store' }
      else
        { attemptsMade := made + 1, result := .thrown e, storeConnected := store }

/-- The hook's `sendMessageWithRetry` (`maxRetries = 3`, `attempt = 0`). -/
def sendMessageWithRetry (isConnected : Bool) (outcomes : Nat → AttemptResult)
    (probeResults : Nat → Bool) : RetryTrace :=
  attemptSend isConnected outcomes probeResults 3 0 0 0 isConnected

/-- A parsed SSE record as the transport's `streamChatMessage` sees it
after `JSON.parse`: its `type` tag and the optional `content`, `metadata`
and `error` properties it reads. -/
structure StreamRecord where
  type : String
  content : Option String := none
  metadata : Option Jval := none
  error : Option String := none

/-- JS truthiness of an optional JSON property (for the
`parsed.content` / `parsed.metadata` guards). -/
def jvalTruthy : Option Jval → Bool
  | some .null => false
  | some (.bool b) => b
  | some (.num q) => !(q = 0)
  | some (.str s) => !(s = "")
  | some (.arr _) => true
  | some (.obj _) => true
  | none => false

/-- One line of one decoded read of the response stream, at the
granularity the reader inspects it: not `data: `-prefixed, the
`[DONE]` sentinel, a line whose payload fails `JSON.parse` (skipped with
a warning), or a parsed record. -/
inductive SSELine where
  | notData
  | dataDone
  | dataMalformed
  | dataRec (r : StreamRecord)

/-- The input of a `streamChatMessage` call: the initial request (or its
missing body) throwing an `APIError`, or the open stream as a sequence of
reads, each a list of lines, optionally ending in a read failure instead
of the final `done` (the outer catch turns either throw into `onError`). -/
inductive StreamInput where
  | requestError (e : String)
  | stream (reads : List (List SSELine)) (abort : Option String)

/-- The inner `for` loop of `streamChatMessage` over the lines of one
read: the callback invocations it makes, and whether it returned out of
the whole call (after `[DONE]` or an `error` record). -/
def processLines : List SSELine → List CallbackEvent × Bool
  | [] => ([], false)
  | .notData :: rest => processLines rest
  | .dataDone :: _ => ([.onComplete], true)
  | .dataMalformed :: rest => processLines rest
  | .dataRec r :: rest =>
    if r.type = "error" then
      ([.onError (if strTruthy r.error then r.error.getD "" else "Stream error occurred")], true)
    else
      let evs :=
        (if r.type = "chunk" ∧ strTruthy r.content = true then [CallbackEvent.onChunk (r.content.getD "")] else [])
        ++ (if r.type = "metadata" ∧ jvalTruthy r.metadata = true then [CallbackEvent.onMetadata ((r.metadata).getD .null)] else [])
      let rec' := processLines rest
      (evs ++ rec'.1, rec'.2)

/-- The `while` loop of `streamChatMessage` over the reads: a `done` read
invokes `onComplete` and breaks; a read failure is caught by the outer
catch, which invokes `onError`. -/
def processReads : List (List SSELine) → Option String → List CallbackEvent
  | [], none => [.onComplete]
  | [], some e => [.onError e]
  | lines :: rest, abort =>
    let r := processLines lines
    if r.2 then r.1 else r.1 ++ processReads rest abort

/-- The transport's `streamChatMessage`, as the sequence of callback
invocations it performs on the given input. -/
def streamChatMessage : StreamInput → List CallbackEvent
  | .requestError e => [.onError e]
  | .stream reads abort => processReads reads abort

/-- Whether a callback invocation is terminal (`onError`/`onComplete`). -/
def isTerminal : CallbackEvent → Bool
  | .onError _ => true
  | .onComplete => true
  | .onChunk _ => false
  | .onMetadata _ => false

/-- C9: deleteSession is idempotent; deleting an absent id is a no-op;
deleting the current session clears `currentSession`. -/
theorem deleteSession_idempotent_spec (st : ChatState) (sessionId : Nat) :
    deleteSession sessionId (deleteSession sessionId st) = deleteSession sessionId st
  ∧ (st.sessions.all (fun s => decide (s.id ≠ sessionId)) = true →
      (∀ cs, st.currentSession = some cs → cs.id ≠ sessionId) →
      deleteSession sessionId st = st)
  ∧ (∀ cs, st.currentSession = some cs → cs.id = sessionId →
      (deleteSession sessionId st).currentSession = none) := by
  obtain ⟨cur, sess, il, er, ic, ni, ck⟩ := st
  refine ⟨?_, ?_, ?_⟩
  · cases cur with
    | none => simp [deleteSession, List.filter_filter]
    | some cs =>
      by_cases h : cs.id = sessionId
      · simp [deleteSession, List.filter_filter, h]
      · simp [deleteSession, List.filter_filter, h]
  · intro hall hcur
    have hmem : ∀ a ∈ sess, ¬ a.id = sessionId := by
      intro a ha
      simpa using List.all_eq_true.mp hall a ha
    cases cur with
    | none =>
      simp only [deleteSession]
      simp
      exact hmem
    | some cs =>
      have hneq : cs.id ≠ sessionId := hcur cs rfl
      simp only [deleteSession]
      simp [hneq]
      exact hmem
  · intro cs hc hid
    simp only [] at hc
    simp [deleteSession, hc, hid]

def sesC9 : ChatSession := { id := 1, messages := [], created_at := 0, updated_at := 0 }

def stC9 : ChatState :=
  { currentSession := some sesC9, sessions := [sesC9], isLoading := false, error := none
    isConnected := true, nextId := 2, clock := 0 }

/-- Witness for C9 at a concrete one-session state. -/
theorem deleteSession_idempotent_spec_witness :
    deleteSession 1 (deleteSession 1 stC9) = deleteSession 1 stC9
  ∧ deleteSession 2 stC9 = stC9
  ∧ (deleteSession 1 stC9).currentSession = none := by
  refine ⟨(deleteSession_idempotent_spec stC9 1).1, ?_, ?_⟩
  · refine (deleteSession_idempotent_spec stC9 2).2.1 rfl ?_
    intro cs h
    have hcs : sesC9 = cs := Option.some.inj h
    rw [← hcs]
    decide
  · exact (deleteSession_idempotent_spec stC9 1).2.2 sesC9 rfl rfl

/-- C10: a malformed import payload (unparseable JSON, or a payload whose
`session.messages` is absent or not an array) makes `importSession` fail
and leaves every field of the state unchanged except the error. -/
theorem importSession_malformed_atomic (payload : Option Jval) (st : ChatState)
    (h : importPayloadValid payload = false) :
    importSession payload st = (false, { st with error := some "Invalid session data format" }) := by
  simp [importSession, h]

def stC10 : ChatState :=
  { currentSession := none, sessions := [], isLoading := false, error := none
    isConnected := true, nextId := 0, clock := 0 }

/-- Witness for C10 on a parsed payload with no `session` object. -/
theorem importSession_malformed_atomic_witness :
    importPayloadValid (some (.str "nonsense")) = false
  ∧ importSession (some (.str "nonsense")) stC10
      = (false, { stC10 with error := some "Invalid session data format" }) :=
  ⟨rfl, importSession_malformed_atomic (some (.str "nonsense")) stC10 rfl⟩

/-- C3 (the code, evaluated at the failing input): with the closure's
captured `isConnected` false, a first attempt that fails, and a re-probe
that reports connected again, `sendMessageWithRetry` still makes no second
attempt: it waits, re-probes (the store flag does become true), and then
propagates the failure, because its retry guard re-reads the stale
captured flag.  The claimed behaviour (retry exactly when the re-probe
reports connected) does not occur. -/
theorem sendMessageWithRetry_stale_closure :
    sendMessageWithRetry false
        (fun _ => .failure "Network error: Unable to connect to the server")
        (fun _ => true)
      = { attemptsMade := 1
          result := .thrown "Network error: Unable to connect to the server"
          storeConnected := true } := by
  decide

def monC2 : MonitorState :=
  { isConnected := true, error := none, pendingReconnects := [], reconnectTimeoutRef := none
    nextTimer := 0 }

/-- C2 counterexample: two failed probes with no timer firing in between
(reachable: the mount probe, the 30-second interval and the orchestrator's
re-probe all run `checkConnection` concurrently with a pending reconnect
timeout) leave TWO pending reconnect timers, refuting the claimed
at-most-one invariant. -/
theorem checkConnection_two_pending_timers :
    ¬ ((monitorRun monC2 [.probeResult false, .probeResult false]).pendingReconnects.length ≤ 1) := by
  decide

/-- C2 amended: each failed probe schedules exactly one new 5000 ms
reconnect timeout and overwrites `reconnectTimeoutRef` without cancelling
the previous timeout, so n failed probes with no timer firing in between
leave n new pending timers on top of whatever was already pending. -/
theorem checkConnection_failed_probes_accumulate (st : MonitorState) (n : Nat) :
    ∃ newTimers : List TimerRec,
      (monitorRun st (List.replicate n (.probeResult false))).pendingReconnects
        = st.pendingReconnects ++ newTimers
      ∧ newTimers.length = n
      ∧ newTimers.all (fun t => decide (t.delay = 5000)) = true := by
  induction n generalizing st with
  | zero => exact ⟨[], by simp [monitorRun], rfl, rfl⟩
  | succ n ih =>
    obtain ⟨ts, h1, h2, h3⟩ := ih (monitorStep st (.probeResult false))
    refine ⟨{ id := st.nextTimer, delay := 5000 } :: ts, ?_, by simp [h2], by simp [h3]⟩
    have hrep : List.replicate (n + 1) (MonitorEvent.probeResult false)
        = .probeResult false :: List.replicate n (.probeResult false) := rfl
    rw [hrep]
    show (monitorRun (monitorStep st (.probeResult false)) (List.replicate n (.probeResult false))).pendingReconnects = _
    rw [h1]
    simp [monitorStep, checkConnectionResult]

theorem processLines_terminal (lines : List SSELine) :
    ((processLines lines).2 = false ∧ (processLines lines).1.all (fun e => !isTerminal e) = true)
    ∨ (∃ pre t, (processLines lines).1 = pre ++ [t] ∧ (processLines lines).2 = true
        ∧ isTerminal t = true ∧ pre.all (fun e => !isTerminal e) = true) := by
  induction lines with
  | nil => exact Or.inl ⟨rfl, rfl⟩
  | cons l rest ih =>
    cases l with
    | notData => simpa only [processLines] using ih
    | dataDone =>
      exact Or.inr ⟨[], .onComplete, by simp [processLines], rfl, rfl, rfl⟩
    | dataMalformed => simpa only [processLines] using ih
    | dataRec r =>
      by_cases herr : r.type = "error"
      · refine Or.inr ⟨[], .onError (if strTruthy r.error then r.error.getD "" else "Stream error occurred"), ?_, ?_, rfl, rfl⟩
        · simp [processLines, herr]
        · simp [processLines, herr]
      · have hevs : ((if r.type = "chunk" ∧ strTruthy r.content = true
              then [CallbackEvent.onChunk (r.content.getD "")] else [])
            ++ (if r.type = "metadata" ∧ jvalTruthy r.metadata = true
              then [CallbackEvent.onMetadata ((r.metadata).getD .null)] else [])).all
            (fun e => !isTerminal e) = true := by
          split_ifs <;> simp [isTerminal]
        rcases ih with ⟨h2, h1⟩ | ⟨pre, t, h1, h2, h3, h4⟩
        · refine Or.inl ⟨?_, ?_⟩
          · simp [processLines, herr, h2]
          · simp only [processLines, if_neg herr, List.all_append]
            rw [List.all_append] at hevs
            simp only [hevs]
            simpa using h1
        · refine Or.inr ⟨(if r.type = "chunk" ∧ strTruthy r.content = true
              then [CallbackEvent.onChunk (r.content.getD "")] else [])
            ++ (if r.type = "metadata" ∧ jvalTruthy r.metadata = true
              then [CallbackEvent.onMetadata ((r.metadata).getD .null)] else []) ++ pre, t, ?_, ?_, h3, ?_⟩
          · simp [processLines, herr, h1]
          · simp [processLines, herr, h2]
          · rw [List.all_append, List.all_append]
            rw [List.all_append] at hevs
            simp only [hevs]
            simpa using h4


theorem processReads_terminal (reads : List (List SSELine)) (abort : Option String) :
    ∃ pre t, processReads reads abort = pre ++ [t] ∧ isTerminal t = true
      ∧ pre.all (fun e => !isTerminal e) = true := by
  induction reads with
  | nil =>
    cases abort with
    | none => exact ⟨[], .onComplete, rfl, rfl, rfl⟩
    | some e => exact ⟨[], .onError e, rfl, rfl, rfl⟩
  | cons lines rest ih =>
    rcases processLines_terminal lines with ⟨h2, h1⟩ | ⟨pre, t, h1, h2, h3, h4⟩
    · obtain ⟨pre', t', hp1, hp2, hp3⟩ := ih
      refine ⟨(processLines lines).1 ++ pre', t', ?_, hp2, ?_⟩
      · simp [processReads, h2, hp1]
      · rw [List.all_append]
        simp [h1, hp3]
    · exact ⟨pre, t, by simp [processReads, h1, h2], h3, h4⟩

/-- C7: every call of the transport's `streamChatMessage` performs exactly
one terminal callback (`onError` or `onComplete`), it is the last callback
performed, and no callback of any kind follows it. -/
theorem streamChatMessage_exactly_one_terminal (input : StreamInput) :
    ∃ pre t, streamChatMessage input = pre ++ [t] ∧ isTerminal t = true
      ∧ pre.all (fun e => !isTerminal e) = true := by
  cases input with
  | requestError e => exact ⟨[], .onError e, rfl, rfl, rfl⟩
  | stream reads abort => exact processReads_terminal reads abort

/-- C4: for empty/whitespace-only or over-long content, `sendMessage` and
`streamMessage` only set the store error (the empty-message error for
whitespace-only content, the too-long error otherwise): every other field
of the state — sessions, current session, flags — is unchanged, no message
is appended, and the result does not depend on the network outcome or
stream events (no request is issued). -/
theorem validateMessage_rejection (content : String) (st : ChatState)
    (h : jsTrim content = "" ∨ 10000 < content.length) :
    ∃ msg, validateMessage content = some msg
      ∧ (jsTrim content = "" → msg = "Message cannot be empty")
      ∧ (jsTrim content ≠ "" → msg = "Message too long (max 10000 characters)")
      ∧ (∀ outcome, sendMessage content outcome st = { st with error := some msg })
      ∧ (∀ events, streamMessage content events st = { st with error := some msg }) := by
  by_cases he : jsTrim content = ""
  · refine ⟨"Message cannot be empty", ?_, fun _ => rfl, fun hn => absurd he hn, ?_, ?_⟩
    · simp [validateMessage, he]
    · intro outcome
      simp [sendMessage, sendMessagePre, validateMessage, he]
    · intro events
      simp [streamMessage, sendMessagePre, validateMessage, he]
  · have hlen : 10000 < content.length := h.resolve_left he
    refine ⟨"Message too long (max 10000 characters)", ?_, fun hh => absurd hh he, fun _ => rfl, ?_, ?_⟩
    · simp [validateMessage, he, hlen]
    · intro outcome
      simp [sendMessage, sendMessagePre, validateMessage, he, hlen]
    · intro events
      simp [streamMessage, sendMessagePre, validateMessage, he, hlen]

def stC4 : ChatState :=
  { currentSession := none, sessions := [], isLoading := false, error := none
    isConnected := true, nextId := 0, clock := 0 }

/-- Witness for C4 with empty content. -/
theorem validateMessage_rejection_witness :
    (jsTrim "" = "" ∨ 10000 < "".length)
    ∧ ∃ msg, validateMessage "" = some msg
      ∧ (jsTrim "" = "" → msg = "Message cannot be empty")
      ∧ (jsTrim "" ≠ "" → msg = "Message too long (max 10000 characters)")
      ∧ (∀ outcome, sendMessage "" outcome stC4 = { stC4 with error := some msg })
      ∧ (∀ events, streamMessage "" events stC4 = { stC4 with error := some msg }) :=
  ⟨Or.inl rfl, validateMessage_rejection "" stC4 (Or.inl rfl)⟩


/-- The user message built by the send/stream prelude (trimmed content). -/
def preUserMessage (mid ts : Nat) (content : String) : Message :=
  { id := mid, role := .user, content := jsTrim content, timestamp := ts }

/-- The assistant placeholder built by the send/stream prelude. -/
def preAssistantMessage (mid ts : Nat) : Message :=
  { id := mid, role := .assistant, content := "", timestamp := ts, isLoading := true }

theorem sendMessagePre_some (content : String) (st : ChatState) (cs0 : ChatSession)
    (hval : validateMessage content = none) (hcur : st.currentSession = some cs0) :
    ∃ st', sendMessagePre content st = .proceed (st.nextId + 1) st'
      ∧ st'.nextId = st.nextId + 4
      ∧ ∃ cs, st'.currentSession = some cs
        ∧ cs.id = cs0.id
        ∧ cs.messages = cs0.messages
            ++ [preUserMessage st.nextId st.clock content,
                preAssistantMessage (st.nextId + 1) st.clock] := by
  obtain ⟨cur, sess, il, er, ic, ni, ck⟩ := st
  have hc : cur = some cs0 := hcur
  subst hc
  simp only [sendMessagePre, hval, addMessage, genId, Option.isSome_some, if_true]
  exact ⟨_, rfl, rfl, _, rfl, rfl, by simp [preUserMessage, preAssistantMessage]⟩

theorem sendMessagePre_none (content : String) (st : ChatState)
    (hval : validateMessage content = none) (hcur : st.currentSession = none) :
    ∃ st', sendMessagePre content st = .proceed (st.nextId + 2) st'
      ∧ st'.nextId = st.nextId + 5
      ∧ ∃ cs, st'.currentSession = some cs
        ∧ cs.id = st.nextId
        ∧ cs.messages =
            [preUserMessage (st.nextId + 1) st.clock content,
             preAssistantMessage (st.nextId + 2) st.clock] := by
  obtain ⟨cur, sess, il, er, ic, ni, ck⟩ := st
  have hc : cur = none := hcur
  subst hc
  simp only [sendMessagePre, hval, createSession, addMessage, genId, Option.isSome_none,
    Bool.false_eq_true, if_false]
  exact ⟨_, rfl, rfl, _, rfl, rfl, by simp [preUserMessage, preAssistantMessage]⟩

theorem replaceFirstMessage_length (msgs : List Message) (messageId : Nat) (p : MessagePatch) :
    (replaceFirstMessage msgs messageId p).length = msgs.length := by
  induction msgs with
  | nil => rfl
  | cons m rest ih =>
    by_cases h : m.id = messageId
    · simp [replaceFirstMessage, h]
    · simp [replaceFirstMessage, h, ih]

theorem updateMessage_clock (messageId : Nat) (p : MessagePatch) (st : ChatState) :
    (updateMessage messageId p st).clock = st.clock := by
  obtain ⟨cur, sess, il, er, ic, ni, ck⟩ := st
  cases cur with
  | none => rfl
  | some cs => cases hany : cs.messages.any (fun m => decide (m.id = messageId)) <;>
      simp [updateMessage, hany]

theorem updateMessage_length (messageId : Nat) (p : MessagePatch) (st : ChatState)
    (cs : ChatSession) (hcur : st.currentSession = some cs) :
    ∃ cs', (updateMessage messageId p st).currentSession = some cs'
      ∧ cs'.messages.length = cs.messages.length := by
  simp only [updateMessage, hcur]
  cases hany : cs.messages.any (fun m => decide (m.id = messageId)) with
  | false => exact ⟨cs, by simp [hany, hcur], rfl⟩
  | true =>
    refine ⟨{ cs with messages := replaceFirstMessage cs.messages messageId p }, ?_, ?_⟩
    · simp [hany]
    · exact replaceFirstMessage_length _ _ _

theorem sendMessagePost_length (content : String) (aId : Nat) (outcome : SendOutcome)
    (st : ChatState) (cs : ChatSession) (hcur : st.currentSession = some cs) :
    ∃ cs', (sendMessagePost content aId outcome st).currentSession = some cs'
      ∧ cs'.messages.length = cs.messages.length := by
  cases outcome with
  | success resp =>
    obtain ⟨cs1, h1, h2⟩ := updateMessage_length aId
      { content := some resp.response, isLoading := some false, metadata := some resp.metadata }
      st cs hcur
    simp only [sendMessagePost, h1]
    by_cases ht : (cs1.messages.filter (fun (m : Message) => decide (m.role = Role.user))).length = 1
    · refine ⟨{ cs1 with title := some (generateSessionTitle content), updated_at := st.clock }, ?_, ?_⟩
      · simp [ht, updateMessage_clock]
      · simpa using h2
    · exact ⟨cs1, by simp [ht, h1], h2⟩
  | failure e =>
    obtain ⟨cs1, h1, h2⟩ := updateMessage_length aId
      { content := some "Sorry, I encountered an error. Please try again."
        isLoading := some false, error := some e } st cs hcur
    exact ⟨cs1, by simp [sendMessagePost, h1], h2⟩

/-- C5: for every valid content (non-empty after trimming, at most 10000
characters), the prelude shared by `sendMessage` appends to the current
session (created first when absent) exactly one user message with the
trimmed content, immediately followed by exactly one assistant placeholder
with empty content and a raised loading flag — both before the network
request — and the continuation after the network outcome appends no
further message, whatever the outcome. -/
theorem sendMessage_appends_exactly_two (content : String) (st : ChatState)
    (h1 : jsTrim content ≠ "") (h2 : content.length ≤ 10000) :
    ∃ aId st', sendMessagePre content st = .proceed aId st'
      ∧ ∃ cs, st'.currentSession = some cs
        ∧ ∃ u a, cs.messages = (match st.currentSession with
              | some cs0 => cs0.messages
              | none => []) ++ [u, a]
          ∧ u.role = .user ∧ u.content = jsTrim content
          ∧ a.role = .assistant ∧ a.content = "" ∧ a.isLoading = true ∧ a.id = aId
          ∧ ∀ outcome, ∃ cs', (sendMessage content outcome st).currentSession = some cs'
              ∧ cs'.messages.length = cs.messages.length := by
  have hval : validateMessage content = none := by
    simp [validateMessage, h1, Nat.not_lt.mpr h2]
  cases hcur : st.currentSession with
  | some cs0 =>
    obtain ⟨st', hpre, hnid, cs, hcs, hcsid, hmsgs⟩ := sendMessagePre_some content st cs0 hval hcur
    refine ⟨st.nextId + 1, st', hpre, cs, hcs,
      preUserMessage st.nextId st.clock content, preAssistantMessage (st.nextId + 1) st.clock,
      by simpa using hmsgs, rfl, rfl, rfl, rfl, rfl, rfl, ?_⟩
    intro outcome
    have hsend : sendMessage content outcome st
        = sendMessagePost content (st.nextId + 1) outcome st' := by
      simp [sendMessage, hpre]
    rw [hsend]
    obtain ⟨cs', hc', hlen⟩ := sendMessagePost_length content (st.nextId + 1) outcome st' cs hcs
    exact ⟨cs', hc', by rw [hlen]⟩
  | none =>
    obtain ⟨st', hpre, hnid, cs, hcs, hcsid, hmsgs⟩ := sendMessagePre_none content st hval hcur
    refine ⟨st.nextId + 2, st', hpre, cs, hcs,
      preUserMessage (st.nextId + 1) st.clock content, preAssistantMessage (st.nextId + 2) st.clock,
      by simpa using hmsgs, rfl, rfl, rfl, rfl, rfl, rfl, ?_⟩
    intro outcome
    have hsend : sendMessage content outcome st
        = sendMessagePost content (st.nextId + 2) outcome st' := by
      simp [sendMessage, hpre]
    rw [hsend]
    obtain ⟨cs', hc', hlen⟩ := sendMessagePost_length content (st.nextId + 2) outcome st' cs hcs
    exact ⟨cs', hc', by rw [hlen]⟩

/-- Concatenation of a list of stream chunk texts. -/
def concatAll : List String → String
  | [] => ""
  | c :: cs => c ++ concatAll cs

theorem replaceFirstMessage_append_last (ms : List Message) (a : Message) (p : MessagePatch)
    (h : ∀ m ∈ ms, m.id ≠ a.id) :
    replaceFirstMessage (ms ++ [a]) a.id p = ms ++ [applyMessagePatch a p] := by
  induction ms with
  | nil => simp [replaceFirstMessage]
  | cons m rest ih =>
    have hm : m.id ≠ a.id := h m (List.mem_cons_self m rest)
    simp only [List.cons_append, replaceFirstMessage, if_neg hm, List.append_eq]
    rw [ih (fun x hx => h x (List.mem_cons_of_mem m hx))]

theorem updateMessage_append_last (st : ChatState) (cs : ChatSession) (ms : List Message)
    (a : Message) (p : MessagePatch) (hcur : st.currentSession = some cs)
    (hmsgs : cs.messages = ms ++ [a]) (hfresh : ∀ m ∈ ms, m.id ≠ a.id) :
    (updateMessage a.id p st).currentSession
      = some { cs with messages := ms ++ [applyMessagePatch a p] } := by
  have hany : cs.messages.any (fun m => decide (m.id = a.id)) = true := by
    rw [hmsgs]
    simp
  simp only [updateMessage, hcur, hany, if_true]
  rw [hmsgs, replaceFirstMessage_append_last ms a p hfresh]

theorem streamFold_chunks (aId : Nat) (chunks : List String) (acc : String) (st : ChatState)
    (cs : ChatSession) (ms : List Message) (a : Message)
    (hcur : st.currentSession = some cs) (hmsgs : cs.messages = ms ++ [a])
    (hfresh : ∀ m ∈ ms, m.id ≠ aId) (haid : a.id = aId)
    (harole : a.role = .assistant) (hacontent : a.content = acc) (haload : a.isLoading = true) :
    ∃ cs' a', ((chunks.map CallbackEvent.onChunk).foldl (streamEventStep aId) (acc, st)).2.currentSession
        = some cs'
      ∧ cs'.messages = ms ++ [a'] ∧ a'.role = .assistant ∧ a'.id = aId
      ∧ a'.content = acc ++ concatAll chunks ∧ a'.isLoading = true := by
  subst haid
  induction chunks generalizing acc st cs a with
  | nil =>
    refine ⟨cs, a, hcur, hmsgs, harole, rfl, ?_, haload⟩
    rw [hacontent]
    simp [concatAll]
  | cons c rest ih =>
    have hstep : (streamEventStep a.id (acc, st) (.onChunk c)).2
        = updateMessage a.id { content := some (acc ++ c), isLoading := some true } st := rfl
    have hupd := updateMessage_append_last st cs ms a
      { content := some (acc ++ c), isLoading := some true } hcur hmsgs hfresh
    have hrec := ih (acc ++ c)
      (updateMessage a.id { content := some (acc ++ c), isLoading := some true } st)
      { cs with messages := ms ++ [applyMessagePatch a
          { content := some (acc ++ c), isLoading := some true }] }
      (applyMessagePatch a { content := some (acc ++ c), isLoading := some true })
      hupd rfl harole rfl rfl hfresh
    simp only [List.map_cons, List.foldl_cons, hstep] at hrec ⊢
    obtain ⟨cs', a', hc', hm', hr', hi', hcont', hl'⟩ := hrec
    refine ⟨cs', a', hc', hm', hr', hi', ?_, hl'⟩
    rw [hcont']
    simp [concatAll, String.append_assoc]


/-- C6: during `streamMessage`, after any prefix of the stream's chunk
events and before any terminal event, the assistant placeholder (the last
message of the current session) holds exactly the concatenation of the
chunk texts received so far and its loading flag is still raised.  The
hypothesis on ids states that the state's message ids were produced by the
id generator (they are below the counter), which every reachable state
satisfies. -/
theorem streamMessage_chunk_accumulation (content : String) (st : ChatState) (chunks : List String)
    (h1 : jsTrim content ≠ "") (h2 : content.length ≤ 10000)
    (hids : ∀ cs0, st.currentSession = some cs0 → ∀ m ∈ cs0.messages, m.id < st.nextId) :
    ∃ cs a, (streamMessage content (chunks.map CallbackEvent.onChunk) st).currentSession = some cs
      ∧ cs.messages.getLast? = some a
      ∧ a.role = .assistant ∧ a.content = concatAll chunks ∧ a.isLoading = true := by
  have hval : validateMessage content = none := by
    simp [validateMessage, h1, Nat.not_lt.mpr h2]
  cases hcur : st.currentSession with
  | some cs0 =>
    obtain ⟨st', hpre, hnid, cs, hcs, hcsid, hmsgs⟩ := sendMessagePre_some content st cs0 hval hcur
    have hstream : streamMessage content (chunks.map CallbackEvent.onChunk) st
        = ((chunks.map CallbackEvent.onChunk).foldl (streamEventStep (st.nextId + 1)) ("", st')).2 := by
      simp [streamMessage, hpre]
    rw [hstream]
    have hshape : cs.messages = (cs0.messages ++ [preUserMessage st.nextId st.clock content])
        ++ [preAssistantMessage (st.nextId + 1) st.clock] := by
      rw [hmsgs]
      simp
    have hfresh : ∀ m ∈ cs0.messages ++ [preUserMessage st.nextId st.clock content],
        m.id ≠ st.nextId + 1 := by
      intro m hm
      rcases List.mem_append.mp hm with hin | hin
      · have := hids cs0 hcur m hin
        omega
      · have hmu : m = preUserMessage st.nextId st.clock content := by simpa using hin
        rw [hmu]
        simp [preUserMessage]
    obtain ⟨cs', a', hc', hm', hr', hi', hcont', hl'⟩ :=
      streamFold_chunks (st.nextId + 1) chunks "" st' cs
        (cs0.messages ++ [preUserMessage st.nextId st.clock content])
        (preAssistantMessage (st.nextId + 1) st.clock)
        hcs hshape hfresh rfl rfl rfl rfl
    refine ⟨cs', a', hc', ?_, hr', by simpa using hcont', hl'⟩
    rw [hm']
    simp
  | none =>
    obtain ⟨st', hpre, hnid, cs, hcs, hcsid, hmsgs⟩ := sendMessagePre_none content st hval hcur
    have hstream : streamMessage content (chunks.map CallbackEvent.onChunk) st
        = ((chunks.map CallbackEvent.onChunk).foldl (streamEventStep (st.nextId + 2)) ("", st')).2 := by
      simp [streamMessage, hpre]
    rw [hstream]
    have hshape : cs.messages = [preUserMessage (st.nextId + 1) st.clock content]
        ++ [preAssistantMessage (st.nextId + 2) st.clock] := by
      rw [hmsgs]
      rfl
    have hfresh : ∀ m ∈ [preUserMessage (st.nextId + 1) st.clock content],
        m.id ≠ st.nextId + 2 := by
      intro m hm
      have hmu : m = preUserMessage (st.nextId + 1) st.clock content := by simpa using hm
      rw [hmu]
      simp [preUserMessage]
    obtain ⟨cs', a', hc', hm', hr', hi', hcont', hl'⟩ :=
      streamFold_chunks (st.nextId + 2) chunks "" st' cs
        [preUserMessage (st.nextId + 1) st.clock content]
        (preAssistantMessage (st.nextId + 2) st.clock)
        hcs hshape hfresh rfl rfl rfl rfl
    refine ⟨cs', a', hc', ?_, hr', by simpa using hcont', hl'⟩
    rw [hm']
    simp

theorem sendMessagePost_shape (content : String) (outcome : SendOutcome) (st : ChatState)
    (cs : ChatSession) (ms : List Message) (a : Message)
    (hcur : st.currentSession = some cs) (hmsgs : cs.messages = ms ++ [a])
    (hfresh : ∀ m ∈ ms, m.id ≠ a.id) (harole : a.role = .assistant) :
    ∃ cs' a', (sendMessagePost content a.id outcome st).currentSession = some cs'
      ∧ cs'.messages = ms ++ [a'] ∧ a'.role = .assistant ∧ a'.id = a.id := by
  cases outcome with
  | success resp =>
    have hupd := updateMessage_append_last st cs ms a
      { content := some resp.response, isLoading := some false, metadata := some resp.metadata }
      hcur hmsgs hfresh
    simp only [sendMessagePost, hupd, updateMessage_clock]
    split
    · exact ⟨_, _, rfl, rfl, harole, rfl⟩
    · exact ⟨_, _, hupd, rfl, harole, rfl⟩
  | failure e =>
    have hupd := updateMessage_append_last st cs ms a
      { content := some "Sorry, I encountered an error. Please try again."
        isLoading := some false, error := some e }
      hcur hmsgs hfresh
    simp only [sendMessagePost]
    exact ⟨_, _, hupd, rfl, harole, rfl⟩

/-- C1 as amended: on a session holding exactly one user message followed
by an errored assistant message, `retryLastMessage` deletes the errored
assistant message and re-sends the user content through `sendMessage`;
because `sendMessage` appends a fresh user message itself, the session
afterwards holds the original user message, a new user message with the
same trimmed content, and one new assistant message — two user messages,
not one. -/
theorem retryLastMessage_resends (st : ChatState) (cs : ChatSession) (um am : Message)
    (outcome : SendOutcome)
    (hcur : st.currentSession = some cs) (hmsgs : cs.messages = [um, am])
    (hum : um.role = .user) (ham : am.role = .assistant)
    (herr : strTruthy am.error = true)
    (hne : um.id ≠ am.id) (hid : um.id < st.nextId)
    (hval : validateMessage um.content = none) :
    ∃ cs' u a, (retryLastMessage outcome st).currentSession = some cs'
      ∧ cs'.messages = [um, u, a]
      ∧ u.role = .user ∧ u.content = jsTrim um.content
      ∧ a.role = .assistant := by
  have hlen : ¬ cs.messages.length < 2 := by
    rw [hmsgs]
    simp
  have hfind : cs.messages.reverse.find? (fun m => decide (m.role = Role.user)) = some um := by
    rw [hmsgs]
    simp [List.find?, ham, hum]
  have hlast : cs.messages.getLast? = some am := by
    rw [hmsgs]
    rfl
  have hcond : am.role = Role.assistant ∧ (strTruthy am.error || am.isLoading) = true :=
    ⟨ham, by simp [herr]⟩
  have hretry : retryLastMessage outcome st
      = sendMessage um.content outcome (deleteMessage am.id st) := by
    simp only [retryLastMessage, hcur]
    rw [if_neg hlen]
    simp only [hfind, hlast]
    rw [if_pos hcond]
  have hdel : (deleteMessage am.id st).currentSession
      = some { cs with messages := [um] } := by
    simp only [deleteMessage, hcur]
    rw [hmsgs]
    simp [List.filter, hne]
  have hnid1 : (deleteMessage am.id st).nextId = st.nextId := by
    simp only [deleteMessage, hcur]
  obtain ⟨st2, hpre, hnid2, cs2, hcs2, hcsid2, hmsgs2⟩ :=
    sendMessagePre_some um.content (deleteMessage am.id st) { cs with messages := [um] } hval hdel
  have hsend : sendMessage um.content outcome (deleteMessage am.id st)
      = sendMessagePost um.content ((deleteMessage am.id st).nextId + 1) outcome st2 := by
    simp [sendMessage, hpre]
  have hmsgs2' : cs2.messages
      = ([um] ++ [preUserMessage (deleteMessage am.id st).nextId (deleteMessage am.id st).clock um.content])
        ++ [preAssistantMessage ((deleteMessage am.id st).nextId + 1) (deleteMessage am.id st).clock] := by
    rw [hmsgs2]
    simp
  have hfresh2 : ∀ m ∈ [um]
      ++ [preUserMessage (deleteMessage am.id st).nextId (deleteMessage am.id st).clock um.content],
      m.id ≠ (preAssistantMessage ((deleteMessage am.id st).nextId + 1) (deleteMessage am.id st).clock).id := by
    intro m hm
    rcases List.mem_append.mp hm with hin | hin
    · have hmu : m = um := by simpa using hin
      rw [hmu]
      simp only [preAssistantMessage, hnid1]
      omega
    · have hmu : m = preUserMessage (deleteMessage am.id st).nextId
          (deleteMessage am.id st).clock um.content := by simpa using hin
      rw [hmu]
      simp [preUserMessage, preAssistantMessage]
  obtain ⟨cs', a', hc', hm', hr', hi'⟩ := sendMessagePost_shape um.content outcome st2 cs2
    ([um] ++ [preUserMessage (deleteMessage am.id st).nextId (deleteMessage am.id st).clock um.content])
    (preAssistantMessage ((deleteMessage am.id st).nextId + 1) (deleteMessage am.id st).clock)
    hcs2 hmsgs2' hfresh2 rfl
  refine ⟨cs',
    preUserMessage (deleteMessage am.id st).nextId (deleteMessage am.id st).clock um.content, a',
    ?_, ?_, by simp [preUserMessage], by simp [preUserMessage], hr'⟩
  · rw [hretry, hsend]
    exact hc'
  · rw [hm']
    rfl

def umC1 : Message := { id := 0, role := .user, content := "a", timestamp := 0 }

def amC1 : Message :=
  { id := 1, role := .assistant, content := "Sorry, I encountered an error. Please try again."
    timestamp := 0, error := some "Failed to send message" }

def sesC1 : ChatSession := { id := 2, messages := [umC1, amC1], created_at := 0, updated_at := 0 }

def stC1 : ChatState :=
  { currentSession := some sesC1, sessions := [sesC1], isLoading := false
    error := some "Failed to send message", isConnected := true, nextId := 3, clock := 1 }

def outC1 : SendOutcome := .success { response := "Hello there", metadata := .null }

/-- C1 counterexample: on the session `[user "a", assistant (error)]`,
`retryLastMessage` leaves TWO user messages and one assistant message, not
the claimed exactly one user message and one assistant message. -/
theorem retryLastMessage_duplicate_user :
    ((retryLastMessage outC1 stC1).currentSession.map
        (fun cs => ((cs.messages.filter (fun (m : Message) => decide (m.role = Role.user))).length,
                    (cs.messages.filter (fun (m : Message) => decide (m.role = Role.assistant))).length)))
      = some (2, 1)
    ∧ ¬ ((retryLastMessage outC1 stC1).currentSession.map
        (fun cs => ((cs.messages.filter (fun (m : Message) => decide (m.role = Role.user))).length,
                    (cs.messages.filter (fun (m : Message) => decide (m.role = Role.assistant))).length)))
      = some (1, 1) := by
  exact ⟨by decide, by decide⟩

/-- Witness for the amended C1 at the concrete errored session. -/
theorem retryLastMessage_resends_witness :
    ∃ cs' u a, (retryLastMessage outC1 stC1).currentSession = some cs'
      ∧ cs'.messages = [umC1, u, a]
      ∧ u.role = .user ∧ u.content = jsTrim umC1.content
      ∧ a.role = .assistant :=
  retryLastMessage_resends stC1 sesC1 umC1 amC1 outC1 rfl rfl rfl rfl (by decide)
    (by decide) (by decide) (by decide)

def stC5 : ChatState :=
  { currentSession := none, sessions := [], isLoading := false, error := none
    isConnected := true, nextId := 0, clock := 0 }

/-- Witness for C5 at a fresh store and the content string `"hi"`. -/
theorem sendMessage_appends_exactly_two_witness :
    (jsTrim "hi" ≠ "" ∧ "hi".length ≤ 10000)
    ∧ (∃ aId st', sendMessagePre "hi" stC5 = .proceed aId st'
      ∧ ∃ cs, st'.currentSession = some cs
        ∧ ∃ u a, cs.messages = (match stC5.currentSession with
              | some cs0 => cs0.messages
              | none => []) ++ [u, a]
          ∧ u.role = .user ∧ u.content = jsTrim "hi"
          ∧ a.role = .assistant ∧ a.content = "" ∧ a.isLoading = true ∧ a.id = aId
          ∧ ∀ outcome, ∃ cs', (sendMessage "hi" outcome stC5).currentSession = some cs'
              ∧ cs'.messages.length = cs.messages.length) :=
  ⟨⟨by decide, by decide⟩, sendMessage_appends_exactly_two "hi" stC5 (by decide) (by decide)⟩

def stC6 : ChatState :=
  { currentSession := none, sessions := [], isLoading := false, error := none
    isConnected := true, nextId := 0, clock := 0 }

/-- Witness for C6: after the chunks `"Hel"` and `"lo"`, the placeholder
holds `"Hello"` and is still loading. -/
theorem streamMessage_chunk_accumulation_witness :
    (jsTrim "hi" ≠ "" ∧ "hi".length ≤ 10000 ∧ concatAll ["Hel", "lo"] = "Hello")
    ∧ (∃ cs a, (streamMessage "hi" (["Hel", "lo"].map CallbackEvent.onChunk) stC6).currentSession
          = some cs
      ∧ cs.messages.getLast? = some a
      ∧ a.role = .assistant ∧ a.content = concatAll ["Hel", "lo"] ∧ a.isLoading = true) :=
  ⟨⟨by decide, by decide, by decide⟩,
   streamMessage_chunk_accumulation "hi" stC6 ["Hel", "lo"] (by decide) (by decide)
     (by intro cs0 h m hm; simp [stC6] at h)⟩

theorem asNat_natCast (n : Nat) : asNat (.num (n : ℚ)) = some n := by
  have hden : ((n : ℚ)).den = 1 := Rat.den_natCast n
  have hnum : ((n : ℚ)).num = (n : ℤ) := Rat.num_natCast n
  simp [asNat, hden, hnum, Int.toNat_natCast]

theorem decodeMessage_encodeMessage (m : Message) : decodeMessage (encodeMessage m) = some m := by
  obtain ⟨mid, role, content, ts, md, il, err⟩ := m
  cases md <;> cases err <;> cases role <;>
    simp [encodeMessage, decodeMessage, getField, lookupField, asNat_natCast, asRole, asString,
      asBool, Role.toStr]

theorem decodeMessages_roundtrip (msgs : List Message) :
    (msgs.map encodeMessage).filterMap decodeMessage = msgs := by
  induction msgs with
  | nil => rfl
  | cons m rest ih => simp [List.filterMap_cons, decodeMessage_encodeMessage, ih]

/-- C8: with a current session whose id was produced by the id generator,
`exportSession` followed by `importSession` on its result succeeds and
yields a current session with exactly the original messages and an id
different from the original session's id. -/
theorem export_import_roundtrip (st : ChatState) (cs : ChatSession)
    (hcur : st.currentSession = some cs) (hid : cs.id < st.nextId) :
    (importSession (exportSession st) st).1 = true
    ∧ ∃ cs', (importSession (exportSession st) st).2.currentSession = some cs'
      ∧ cs'.messages = cs.messages ∧ cs'.id ≠ cs.id := by
  have hexp : exportSession st = some (.obj [("session", encodeSession cs),
      ("exported_at", .num (st.clock : ℚ)), ("version", .str "1.0")]) := by
    simp [exportSession, hcur]
  have hses : getField (.obj [("session", encodeSession cs),
      ("exported_at", .num (st.clock : ℚ)), ("version", .str "1.0")]) "session"
      = some (encodeSession cs) := rfl
  have hmsgsfield : getField (encodeSession cs) "messages"
      = some (.arr (cs.messages.map encodeMessage)) := by
    obtain ⟨sid, msgs, ca, ua, title, location⟩ := cs
    cases title <;> cases location <;> rfl
  have hvalid : importPayloadValid (exportSession st) = true := by
    rw [hexp]
    simp [importPayloadValid, hses, hmsgsfield]
  rw [hexp] at hvalid ⊢
  simp only [importSession, hvalid, if_true, hses, hmsgsfield, Option.getD_some,
    decodeMessages_roundtrip, genId]
  refine ⟨trivial, _, rfl, rfl, ?_⟩
  show ¬ st.nextId = cs.id
  omega

def msgC8 : Message := { id := 0, role := .user, content := "hello", timestamp := 5 }

def sesC8 : ChatSession := { id := 1, messages := [msgC8], created_at := 5, updated_at := 6 }

def stC8 : ChatState :=
  { currentSession := some sesC8, sessions := [sesC8], isLoading := false, error := none
    isConnected := true, nextId := 2, clock := 7 }

/-- Witness for C8 at a concrete one-message session. -/
theorem export_import_roundtrip_witness :
    (stC8.currentSession = some sesC8 ∧ sesC8.id < stC8.nextId)
    ∧ ((importSession (exportSession stC8) stC8).1 = true
      ∧ ∃ cs', (importSession (exportSession stC8) stC8).2.currentSession = some cs'
        ∧ cs'.messages = sesC8.messages ∧ cs'.id ≠ sesC8.id) :=
  ⟨⟨rfl, by decide⟩, export_import_roundtrip stC8 sesC8 rfl (by decide)⟩
